import Mathlib

/-!
The gdbserver in-process agent, GNU/Linux/arm low level interface.

A shallow embedding of `gdb/gdbserver/linux-arm-ipa.c`: the hardware
capability resolver `arm_ipa_read_hwcap` and the fast tracepoint register
decoder `supply_fast_tracepoint_registers`, with the properties the
specification states about them.

Conventions of the embedding.
* C unsigned integers are natural numbers; arithmetic that is done in
  `uint32_t` is reduced modulo `2 ^ 32` explicitly.
* C `int` values (the entries of the offset tables, among them the sentinel
  `-1`) are integers.
* A byte is a natural number; a register value is the list of its bytes in
  memory order.
* The process wide variable `ipa_tdesc` is an explicit argument.
-/

namespace LinuxArmIpa

/-! ## Definitions -/

/-! ### ARM GNU/Linux HWCAP values -/

def HWCAP_VFP : Nat := 64
def HWCAP_IWMMXT : Nat := 512
def HWCAP_NEON : Nat := 4096
def HWCAP_VFPv3 : Nat := 8192
def HWCAP_VFPv3D16 : Nat := 16384

/-- Key of the hardware capability entry of the auxiliary vector, the
constant `AT_HWCAP` of the system header `<elf.h>`. -/
def AT_HWCAP : Nat := 16

/-- The four target descriptions `tdesc_arm`, `tdesc_arm_with_vfpv2`,
`tdesc_arm_with_vfpv3` and `tdesc_arm_with_neon`.  The source compares
pointers to four distinct objects; the embedding keeps their identity only. -/
inductive target_desc where
  | tdesc_arm
  | tdesc_arm_with_vfpv2
  | tdesc_arm_with_vfpv3
  | tdesc_arm_with_neon
  deriving DecidableEq, Repr

open target_desc

/-- What the operating system hands to `arm_ipa_get_hwcap`.  With
`HAVE_GETAUXVAL` it is the result of `getauxval (AT_HWCAP)`.  Without it, it
is the file `/proc/self/auxv`: `none` when `fopen` fails, otherwise the
sequence of complete two word records `(data[0], data[1])` that successive
`fread` calls deliver. -/
inductive hwcap_source where
  | getauxval (result : Nat)
  | proc_self_auxv (records : Option (List (Nat × Nat)))

/-- The `while (fread ...)` loop of `arm_ipa_get_hwcap`: scan the records in
order, store the value of the first one whose key is `AT_HWCAP` and stop. -/
def arm_ipa_get_hwcap_scan (val : Nat) : List (Nat × Nat) → Nat
  | [] => val
  | data :: rest => if data.1 = AT_HWCAP then data.2 else arm_ipa_get_hwcap_scan val rest

/-- The function `arm_ipa_get_hwcap (unsigned long *valp)`: the argument
`val` is the content of `*valp` on entry, the result its content on return. -/
def arm_ipa_get_hwcap (source : hwcap_source) (val : Nat) : Nat :=
  match source with
  | hwcap_source.getauxval result => result
  | hwcap_source.proc_self_auxv none => val
  | hwcap_source.proc_self_auxv (some records) => arm_ipa_get_hwcap_scan val records

/-- The function `arm_ipa_read_hwcap`. -/
def arm_ipa_read_hwcap (source : hwcap_source) : target_desc :=
  let arm_hwcap := arm_ipa_get_hwcap source 0
  if arm_hwcap = 0 then
    tdesc_arm
  else if arm_hwcap &&& HWCAP_IWMMXT ≠ 0 then
    tdesc_arm
  else if arm_hwcap &&& HWCAP_VFP ≠ 0 then
    if arm_hwcap &&& HWCAP_NEON ≠ 0 then
      tdesc_arm_with_neon
    else if arm_hwcap &&& (HWCAP_VFPv3 ||| HWCAP_VFPv3D16) = HWCAP_VFPv3 then
      tdesc_arm_with_vfpv3
    else
      tdesc_arm_with_vfpv2
  else
    tdesc_arm

/-! ### Layout of the block saved by the jump pad -/

/-- Size in bytes of a 32 bit general purpose register. -/
def GPR_SIZE : Int := 4
/-- Size in bytes of a 64 bit floating point register. -/
def FPR_SIZE : Int := 8

def FT_CR_PC : Int := 0
def FT_CR_CPSR : Int := 1 * GPR_SIZE
def FT_CR_LR : Int := 15 * GPR_SIZE
def FT_CR_GPR_0 : Int := 2 * GPR_SIZE
def FT_CR_FPR_0 : Int := FT_CR_LR + GPR_SIZE
def FT_CR_GPR (n : Int) : Int := (FT_CR_GPR_0 + (n * GPR_SIZE))
def FT_CR_FPR (n : Int) : Int := (FT_CR_FPR_0 + (n * FPR_SIZE))
def FT_CR_UNAVAIL : Int := -1

/-- Mapping between the registers collected by the jump pad and the register
numbering of the register cache, for the arm core registers. -/
def arm_core_ft_collect_regmap : List Int := [
  FT_CR_GPR 0,
  FT_CR_GPR 1,
  FT_CR_GPR 2,
  FT_CR_GPR 3,
  FT_CR_GPR 4,
  FT_CR_GPR 5,
  FT_CR_GPR 6,
  FT_CR_GPR 7,
  FT_CR_GPR 8,
  FT_CR_GPR 9,
  FT_CR_GPR 10,
  FT_CR_GPR 11,
  FT_CR_GPR 12,
  -- SP is calculated rather than collected.
  FT_CR_UNAVAIL,
  FT_CR_LR,
  FT_CR_PC,
  -- Legacy FPA registers, 16 to 24.
  FT_CR_UNAVAIL,
  FT_CR_UNAVAIL,
  FT_CR_UNAVAIL,
  FT_CR_UNAVAIL,
  FT_CR_UNAVAIL,
  FT_CR_UNAVAIL,
  FT_CR_UNAVAIL,
  FT_CR_UNAVAIL,
  FT_CR_UNAVAIL,
  FT_CR_CPSR]

/-- Mapping for the VFPv2 registers. -/
def arm_vfpv2_ft_collect_regmap : List Int := [
  FT_CR_FPR 0,
  FT_CR_FPR 1,
  FT_CR_FPR 2,
  FT_CR_FPR 3,
  FT_CR_FPR 4,
  FT_CR_FPR 5,
  FT_CR_FPR 6,
  FT_CR_FPR 7,
  FT_CR_FPR 8,
  FT_CR_FPR 9,
  FT_CR_FPR 10,
  FT_CR_FPR 11,
  FT_CR_FPR 12,
  FT_CR_FPR 13,
  FT_CR_FPR 14,
  FT_CR_FPR 15]

/-- Mapping for the VFPv3 registers. -/
def arm_vfpv3_ft_collect_regmap : List Int := [
  FT_CR_FPR 0,
  FT_CR_FPR 1,
  FT_CR_FPR 2,
  FT_CR_FPR 3,
  FT_CR_FPR 4,
  FT_CR_FPR 5,
  FT_CR_FPR 6,
  FT_CR_FPR 7,
  FT_CR_FPR 8,
  FT_CR_FPR 9,
  FT_CR_FPR 10,
  FT_CR_FPR 11,
  FT_CR_FPR 12,
  FT_CR_FPR 13,
  FT_CR_FPR 14,
  FT_CR_FPR 15,
  FT_CR_FPR 16,
  FT_CR_FPR 17,
  FT_CR_FPR 18,
  FT_CR_FPR 19,
  FT_CR_FPR 20,
  FT_CR_FPR 21,
  FT_CR_FPR 22,
  FT_CR_FPR 23,
  FT_CR_FPR 24,
  FT_CR_FPR 25,
  FT_CR_FPR 26,
  FT_CR_FPR 27,
  FT_CR_FPR 28,
  FT_CR_FPR 29,
  FT_CR_FPR 30,
  FT_CR_FPR 31]

def ARM_CORE_NUM_FT_COLLECT_REGS : Nat := arm_core_ft_collect_regmap.length
def ARM_VFPV2_NUM_FT_COLLECT_REGS : Nat := arm_vfpv2_ft_collect_regmap.length
def ARM_VFPV3_NUM_FT_COLLECT_REGS : Nat := arm_vfpv3_ft_collect_regmap.length

/-! ### Memory, pointers and the register cache -/

/-- A pointer to bytes, such as the argument `buf` of the decoder: `addr` is
the numeric value of the pointer and `load off` the byte stored `off` bytes
past it.  The decoder checks no bound, so `load` is total. -/
structure byte_ptr where
  addr : Nat
  load : Int → Nat

/-- The pointer `(char *) buf + off`. -/
def byte_ptr.offset (buf : byte_ptr) (off : Int) : byte_ptr :=
  { addr := (buf.addr + off).toNat, load := fun k => buf.load (off + k) }

/-- The `width` bytes found at a pointer, in memory order. -/
def byte_ptr.read (p : byte_ptr) (width : Nat) : List Nat :=
  (List.range width).map (fun (k : Nat) => p.load (k : Int))

/-- Storage of a `uint32_t` object holding `val`, seen through a pointer to
it (`&val`): four bytes in the byte order of the machine.  Bytes past the
object read as zero. -/
def uint32_object (big_endian : Bool) (val : Nat) : byte_ptr :=
  { addr := 0,
    load := fun k =>
      if 0 ≤ k ∧ k < 4 then
        (if big_endian then val / 256 ^ (3 - k.toNat) % 256 else val / 256 ^ k.toNat % 256)
      else 0 }

/-- The number a four byte register value stands for, in the byte order of
the machine. -/
def uint32_value (big_endian : Bool) (bytes : List Nat) : Nat :=
  if big_endian then
    bytes.getD 0 0 * 256 ^ 3 + bytes.getD 1 0 * 256 ^ 2 + bytes.getD 2 0 * 256 + bytes.getD 3 0
  else
    bytes.getD 0 0 + bytes.getD 1 0 * 256 + bytes.getD 2 0 * 256 ^ 2 + bytes.getD 3 0 * 256 ^ 3

/-- Modelled from the spec: the register cache (`struct regcache` of
regcache.c, absent) is "a mapping from register index (0-based, architecture
register-numbering order) to register value bytes". -/
abbrev regcache := Nat → List Nat

/-- Modelled from the spec: the width in bytes of register `n` (the register
descriptions regs-arm*.c are generated files, absent).  Core registers hold
"a fixed-width (word-sized) value", the extension registers, which start "at
register index = core register count", hold "fixed-width
(double-word-sized) values". -/
def register_size (n : Nat) : Nat :=
  if n < ARM_CORE_NUM_FT_COLLECT_REGS then GPR_SIZE.toNat else FPR_SIZE.toNat

/-- Modelled from the spec: `supply_register (regcache, n, buf)` of
regcache.c (absent) reads the value of register `n`, of the width of that
register, at `buf` and "write[s] it into the cache at the corresponding
register index"; no other register changes. -/
def supply_register (cache : regcache) (n : Nat) (buf : byte_ptr) : regcache :=
  fun m => if m = n then buf.read (register_size n) else cache m

/-- The extension register count that the specification assigns to each
descriptor: 0 for Base, 16 for Short-Float, 32 for Extended-Float and SIMD.
It is the table of the specification, used to state properties; the decoder
below computes its own count `num_ext_regs`. -/
def extension_register_count : target_desc → Nat
  | tdesc_arm => 0
  | tdesc_arm_with_vfpv2 => 16
  | tdesc_arm_with_vfpv3 => 32
  | tdesc_arm_with_neon => 32

/-! ### The decoder -/

/-- The function `supply_fast_tracepoint_registers (regcache, buf)`.
`ipa_tdesc` is the selected target description and `big_endian` the byte
order in which the local `uint32_t val` is stored.  A `for` loop over
`0 <= i < n` is a left fold over `List.range n`; the pair `step` holds the
cache and the local `num_ext_regs` after the `if` on `ipa_tdesc`; the sum
assigned to `val` is taken in `uint32_t`, the cast `(uint32_t) buf` keeping
the low 32 bits of the address. -/
def supply_fast_tracepoint_registers (ipa_tdesc : target_desc) (big_endian : Bool)
    (cache : regcache) (buf : byte_ptr) : regcache :=
  let cache := (List.range ARM_CORE_NUM_FT_COLLECT_REGS).foldl
    (fun cache i =>
      let index := arm_core_ft_collect_regmap.getD i 0
      if index ≠ FT_CR_UNAVAIL then
        supply_register cache i (buf.offset (arm_core_ft_collect_regmap.getD i 0))
      else cache)
    cache
  let step : regcache × Nat :=
    if ipa_tdesc = tdesc_arm_with_neon ∨ ipa_tdesc = tdesc_arm_with_vfpv3 then
      ((List.range ARM_VFPV3_NUM_FT_COLLECT_REGS).foldl
        (fun cache i =>
          supply_register cache (i + ARM_CORE_NUM_FT_COLLECT_REGS)
            (buf.offset (arm_vfpv3_ft_collect_regmap.getD i 0)))
        cache, ARM_VFPV3_NUM_FT_COLLECT_REGS)
    else if ipa_tdesc = tdesc_arm_with_vfpv2 then
      ((List.range ARM_VFPV2_NUM_FT_COLLECT_REGS).foldl
        (fun cache i =>
          supply_register cache (i + ARM_CORE_NUM_FT_COLLECT_REGS)
            (buf.offset (arm_vfpv2_ft_collect_regmap.getD i 0)))
        cache, ARM_VFPV2_NUM_FT_COLLECT_REGS)
    else (cache, 0)
  let cache := step.1
  let num_ext_regs := step.2
  -- SP calculation from stack layout.
  let val : Nat := (buf.addr % 2 ^ 32 + 16 * 4 + num_ext_regs * 8) % 2 ^ 32
  supply_register cache 13 (uint32_object big_endian val)

/-- The decoder together with a record of the reads it makes in the capture
buffer.  The statements are those of `supply_fast_tracepoint_registers`; each
`supply_register` call whose source is `(char *) buf + off` also appends the
pair `(off, register_size n)`, the offset and the number of bytes copied from
there, to the record.  The last call reads the local `val`, not the buffer,
and appends nothing. -/
def supply_fast_tracepoint_registers_logged (ipa_tdesc : target_desc) (big_endian : Bool)
    (cache : regcache) (buf : byte_ptr) : regcache × List (Int × Nat) :=
  let st : regcache × List (Int × Nat) := (List.range ARM_CORE_NUM_FT_COLLECT_REGS).foldl
    (fun st i =>
      let index := arm_core_ft_collect_regmap.getD i 0
      if index ≠ FT_CR_UNAVAIL then
        (supply_register st.1 i (buf.offset (arm_core_ft_collect_regmap.getD i 0)),
          st.2 ++ [(arm_core_ft_collect_regmap.getD i 0, register_size i)])
      else st)
    (cache, [])
  let step : (regcache × List (Int × Nat)) × Nat :=
    if ipa_tdesc = tdesc_arm_with_neon ∨ ipa_tdesc = tdesc_arm_with_vfpv3 then
      ((List.range ARM_VFPV3_NUM_FT_COLLECT_REGS).foldl
        (fun st i =>
          (supply_register st.1 (i + ARM_CORE_NUM_FT_COLLECT_REGS)
              (buf.offset (arm_vfpv3_ft_collect_regmap.getD i 0)),
            st.2 ++ [(arm_vfpv3_ft_collect_regmap.getD i 0,
              register_size (i + ARM_CORE_NUM_FT_COLLECT_REGS))]))
        st, ARM_VFPV3_NUM_FT_COLLECT_REGS)
    else if ipa_tdesc = tdesc_arm_with_vfpv2 then
      ((List.range ARM_VFPV2_NUM_FT_COLLECT_REGS).foldl
        (fun st i =>
          (supply_register st.1 (i + ARM_CORE_NUM_FT_COLLECT_REGS)
              (buf.offset (arm_vfpv2_ft_collect_regmap.getD i 0)),
            st.2 ++ [(arm_vfpv2_ft_collect_regmap.getD i 0,
              register_size (i + ARM_CORE_NUM_FT_COLLECT_REGS))]))
        st, ARM_VFPV2_NUM_FT_COLLECT_REGS)
    else (st, 0)
  let st := step.1
  let num_ext_regs := step.2
  -- SP calculation from stack layout.
  let val : Nat := (buf.addr % 2 ^ 32 + 16 * 4 + num_ext_regs * 8) % 2 ^ 32
  (supply_register st.1 13 (uint32_object big_endian val), st.2)

/-! ## Theorems -/

/-! ### Bit tests -/

theorem land_two_pow (h k : Nat) : h &&& 2 ^ k = if h.testBit k then 2 ^ k else 0 := by
  apply Nat.eq_of_testBit_eq
  intro i
  by_cases hb : h.testBit k
  · simp only [hb, if_true, Nat.testBit_and, Nat.testBit_two_pow]
    by_cases hki : k = i
    · subst hki; simp [hb]
    · simp [hki]
  · simp only [hb, Nat.testBit_and, Nat.testBit_two_pow, Nat.zero_testBit]
    by_cases hki : k = i
    · subst hki; simp [hb]
    · simp [hki]

theorem land_vfpv3_mask (h : Nat) :
    h &&& (HWCAP_VFPv3 ||| HWCAP_VFPv3D16) = HWCAP_VFPv3 ↔
      h &&& HWCAP_VFPv3 ≠ 0 ∧ h &&& HWCAP_VFPv3D16 = 0 := by
  rw [Nat.and_or_distrib_left]
  have h1 : h &&& HWCAP_VFPv3 = if h.testBit 13 then 2 ^ 13 else 0 := land_two_pow h 13
  have h2 : h &&& HWCAP_VFPv3D16 = if h.testBit 14 then 2 ^ 14 else 0 := land_two_pow h 14
  rw [h1, h2]
  cases h.testBit 13 <;> cases h.testBit 14 <;> simp [HWCAP_VFPv3]

/-! ### The capability resolver -/

/-- C1: whenever the capability bitmask obtained by `arm_ipa_read_hwcap` has
the iWMMXt bit (`HWCAP_IWMMXT`, 512) set, the result is `tdesc_arm`, whatever
the other bits are. -/
theorem read_hwcap_iwmmxt (source : hwcap_source)
    (h : arm_ipa_get_hwcap source 0 &&& HWCAP_IWMMXT ≠ 0) :
    arm_ipa_read_hwcap source = tdesc_arm := by
  unfold arm_ipa_read_hwcap
  simp only [h]
  split <;> simp

theorem read_hwcap_iwmmxt_witness :
    arm_ipa_get_hwcap (hwcap_source.getauxval (512 + 64 + 4096 + 8192)) 0 &&& HWCAP_IWMMXT ≠ 0 ∧
      arm_ipa_read_hwcap (hwcap_source.getauxval (512 + 64 + 4096 + 8192)) = tdesc_arm :=
  ⟨by decide, read_hwcap_iwmmxt (hwcap_source.getauxval (512 + 64 + 4096 + 8192)) (by decide)⟩

/-- C2: whenever the capability bitmask has the VFP bit (64) and the NEON bit
(4096) set and the iWMMXt bit (512) clear, `arm_ipa_read_hwcap` returns
`tdesc_arm_with_neon`, whatever the VFPv3 and VFPv3D16 bits are. -/
theorem read_hwcap_neon (source : hwcap_source)
    (hvfp : arm_ipa_get_hwcap source 0 &&& HWCAP_VFP ≠ 0)
    (hneon : arm_ipa_get_hwcap source 0 &&& HWCAP_NEON ≠ 0)
    (hiwmmxt : arm_ipa_get_hwcap source 0 &&& HWCAP_IWMMXT = 0) :
    arm_ipa_read_hwcap source = tdesc_arm_with_neon := by
  have hne : arm_ipa_get_hwcap source 0 ≠ 0 := by
    intro h0
    rw [h0] at hvfp
    simp at hvfp
  unfold arm_ipa_read_hwcap
  simp [hne, hvfp, hneon, hiwmmxt]

theorem read_hwcap_neon_witness :
    arm_ipa_get_hwcap (hwcap_source.getauxval (64 + 4096 + 16384)) 0 &&& HWCAP_VFP ≠ 0 ∧
      arm_ipa_get_hwcap (hwcap_source.getauxval (64 + 4096 + 16384)) 0 &&& HWCAP_NEON ≠ 0 ∧
      arm_ipa_get_hwcap (hwcap_source.getauxval (64 + 4096 + 16384)) 0 &&& HWCAP_IWMMXT = 0 ∧
      arm_ipa_read_hwcap (hwcap_source.getauxval (64 + 4096 + 16384)) = tdesc_arm_with_neon :=
  ⟨by decide, by decide, by decide,
    read_hwcap_neon (hwcap_source.getauxval (64 + 4096 + 16384))
      (by decide) (by decide) (by decide)⟩

/-- C3: whenever the capability bitmask has the VFP bit (64) set and the
iWMMXt (512) and NEON (4096) bits clear, `arm_ipa_read_hwcap` returns
`tdesc_arm_with_vfpv3` if and only if the VFPv3 bit (8192) is set and the
VFPv3D16 bit (16384) is not set. -/
theorem read_hwcap_vfpv3_iff (source : hwcap_source)
    (hvfp : arm_ipa_get_hwcap source 0 &&& HWCAP_VFP ≠ 0)
    (hiwmmxt : arm_ipa_get_hwcap source 0 &&& HWCAP_IWMMXT = 0)
    (hneon : arm_ipa_get_hwcap source 0 &&& HWCAP_NEON = 0) :
    arm_ipa_read_hwcap source = tdesc_arm_with_vfpv3 ↔
      (arm_ipa_get_hwcap source 0 &&& HWCAP_VFPv3 ≠ 0 ∧
        arm_ipa_get_hwcap source 0 &&& HWCAP_VFPv3D16 = 0) := by
  have hne : arm_ipa_get_hwcap source 0 ≠ 0 := by
    intro h0
    rw [h0] at hvfp
    simp at hvfp
  rw [← land_vfpv3_mask]
  unfold arm_ipa_read_hwcap
  simp only [hne, hvfp, hneon, hiwmmxt, if_false, if_true, ne_eq, not_true_eq_false,
    not_false_eq_true]
  split <;> simp_all

theorem read_hwcap_vfpv3_iff_witness :
    arm_ipa_get_hwcap (hwcap_source.getauxval (64 + 8192)) 0 &&& HWCAP_VFP ≠ 0 ∧
      arm_ipa_get_hwcap (hwcap_source.getauxval (64 + 8192)) 0 &&& HWCAP_IWMMXT = 0 ∧
      arm_ipa_get_hwcap (hwcap_source.getauxval (64 + 8192)) 0 &&& HWCAP_NEON = 0 ∧
      arm_ipa_read_hwcap (hwcap_source.getauxval (64 + 8192)) = tdesc_arm_with_vfpv3 :=
  ⟨by decide, by decide, by decide,
    (read_hwcap_vfpv3_iff (hwcap_source.getauxval (64 + 8192))
      (by decide) (by decide) (by decide)).mpr ⟨by decide, by decide⟩⟩

/-- C4: whenever the capability bitmask has the VFP bit (64) set, the iWMMXt
(512) and NEON (4096) bits clear, and it is not the case that VFPv3 (8192) is
set with VFPv3D16 (16384) clear, `arm_ipa_read_hwcap` returns
`tdesc_arm_with_vfpv2`; the bitmask 64 is such a case. -/
theorem read_hwcap_vfpv2 :
    (∀ source : hwcap_source,
      arm_ipa_get_hwcap source 0 &&& HWCAP_VFP ≠ 0 →
      arm_ipa_get_hwcap source 0 &&& HWCAP_IWMMXT = 0 →
      arm_ipa_get_hwcap source 0 &&& HWCAP_NEON = 0 →
      ¬ (arm_ipa_get_hwcap source 0 &&& HWCAP_VFPv3 ≠ 0 ∧
          arm_ipa_get_hwcap source 0 &&& HWCAP_VFPv3D16 = 0) →
      arm_ipa_read_hwcap source = tdesc_arm_with_vfpv2) ∧
    (∀ source : hwcap_source, arm_ipa_get_hwcap source 0 = 64 →
      arm_ipa_read_hwcap source = tdesc_arm_with_vfpv2) := by
  have main : ∀ source : hwcap_source,
      arm_ipa_get_hwcap source 0 &&& HWCAP_VFP ≠ 0 →
      arm_ipa_get_hwcap source 0 &&& HWCAP_IWMMXT = 0 →
      arm_ipa_get_hwcap source 0 &&& HWCAP_NEON = 0 →
      ¬ (arm_ipa_get_hwcap source 0 &&& HWCAP_VFPv3 ≠ 0 ∧
          arm_ipa_get_hwcap source 0 &&& HWCAP_VFPv3D16 = 0) →
      arm_ipa_read_hwcap source = tdesc_arm_with_vfpv2 := by
    intro source hvfp hiwmmxt hneon hnot
    have hne : arm_ipa_get_hwcap source 0 ≠ 0 := by
      intro h0
      rw [h0] at hvfp
      simp at hvfp
    rw [← land_vfpv3_mask] at hnot
    unfold arm_ipa_read_hwcap
    simp [hne, hvfp, hneon, hiwmmxt, hnot]
  refine ⟨main, ?_⟩
  intro source h64
  apply main source <;> rw [h64] <;> decide

theorem read_hwcap_vfpv2_witness :
    arm_ipa_read_hwcap (hwcap_source.getauxval (64 + 8192 + 16384)) = tdesc_arm_with_vfpv2 ∧
      arm_ipa_read_hwcap (hwcap_source.proc_self_auxv (some [(6, 4096), (16, 64)])) =
        tdesc_arm_with_vfpv2 :=
  ⟨read_hwcap_vfpv2.1 (hwcap_source.getauxval (64 + 8192 + 16384))
      (by decide) (by decide) (by decide) (by decide),
    read_hwcap_vfpv2.2 (hwcap_source.proc_self_auxv (some [(6, 4096), (16, 64)])) (by decide)⟩

/-- C5: whenever the capability bitmask has the VFP bit (64) clear,
`arm_ipa_read_hwcap` returns `tdesc_arm`, also when the NEON, VFPv3 or
VFPv3D16 bits are set without it. -/
theorem read_hwcap_no_vfp (source : hwcap_source)
    (hvfp : arm_ipa_get_hwcap source 0 &&& HWCAP_VFP = 0) :
    arm_ipa_read_hwcap source = tdesc_arm := by
  unfold arm_ipa_read_hwcap
  simp only [hvfp, ne_eq, not_true_eq_false, if_false]
  split
  · rfl
  · split <;> rfl

theorem read_hwcap_no_vfp_witness :
    arm_ipa_get_hwcap (hwcap_source.getauxval (4096 + 8192 + 16384)) 0 &&& HWCAP_VFP = 0 ∧
      arm_ipa_read_hwcap (hwcap_source.getauxval (4096 + 8192 + 16384)) = tdesc_arm :=
  ⟨by decide, read_hwcap_no_vfp (hwcap_source.getauxval (4096 + 8192 + 16384)) (by decide)⟩

/-- C6: when the capability source yields the value zero,
`arm_ipa_read_hwcap` returns `tdesc_arm`. -/
theorem read_hwcap_zero (source : hwcap_source) (h : arm_ipa_get_hwcap source 0 = 0) :
    arm_ipa_read_hwcap source = tdesc_arm := by
  unfold arm_ipa_read_hwcap
  simp [h]

theorem read_hwcap_zero_witness :
    arm_ipa_get_hwcap (hwcap_source.proc_self_auxv none) 0 = 0 ∧
      arm_ipa_read_hwcap (hwcap_source.proc_self_auxv none) = tdesc_arm :=
  ⟨by decide, read_hwcap_zero (hwcap_source.proc_self_auxv none) (by decide)⟩

/-! ### The decoder: loops -/

theorem foldl_range_succ {α : Type} (f : α → Nat → α) (a : α) (n : Nat) :
    (List.range (n + 1)).foldl f a = f ((List.range n).foldl f a) n := by
  rw [List.range_succ, List.foldl_append]
  rfl

/-- The loop over the core table, run for `n` rounds: register `m` holds the
bytes at its table offset when `m < n` and its entry is not the sentinel, and
is unchanged otherwise. -/
theorem core_loop_apply (buf : byte_ptr) (cache : regcache) (n m : Nat) :
    (List.range n).foldl
        (fun cache i =>
          let index := arm_core_ft_collect_regmap.getD i 0
          if index ≠ FT_CR_UNAVAIL then
            supply_register cache i (buf.offset (arm_core_ft_collect_regmap.getD i 0))
          else cache)
        cache m =
      if m < n ∧ arm_core_ft_collect_regmap.getD m 0 ≠ FT_CR_UNAVAIL then
        (buf.offset (arm_core_ft_collect_regmap.getD m 0)).read (register_size m)
      else cache m := by
  induction n with
  | zero => simp
  | succ n ih =>
    rw [foldl_range_succ]
    dsimp only
    by_cases hs : arm_core_ft_collect_regmap.getD n 0 = FT_CR_UNAVAIL
    · rw [if_neg (not_not.mpr hs), ih]
      by_cases hm : m = n
      · subst hm
        rw [if_neg (fun h => h.2 hs), if_neg (fun h => h.2 hs)]
      · have hlt : m < n + 1 ↔ m < n := by omega
        simp only [hlt]
    · rw [if_pos hs]
      by_cases hm : m = n
      · subst hm
        rw [if_pos ⟨Nat.lt_succ_self m, hs⟩]
        simp only [supply_register, if_true]
      · have hlt : m < n + 1 ↔ m < n := by omega
        simp only [supply_register, hm, if_false, hlt]
        exact ih

/-- A loop over an extension table, run for `n` rounds: register `m` holds
the bytes at the table offset of `m - c` when `c <= m < c + n`, and is
unchanged otherwise. -/
theorem ext_loop_apply (table : List Int) (c : Nat) (buf : byte_ptr) (cache : regcache)
    (n m : Nat) :
    (List.range n).foldl
        (fun cache i => supply_register cache (i + c) (buf.offset (table.getD i 0)))
        cache m =
      if c ≤ m ∧ m < c + n then
        (buf.offset (table.getD (m - c) 0)).read (register_size m)
      else cache m := by
  induction n with
  | zero =>
    have h0 : ¬ (c ≤ m ∧ m < c + 0) := by omega
    rw [if_neg h0]
    rfl
  | succ n ih =>
    rw [foldl_range_succ]
    by_cases hm : m = n + c
    · have hin : c ≤ m ∧ m < c + (n + 1) := by omega
      have hidx : m - c = n := by omega
      rw [if_pos hin, hidx]
      subst hm
      simp only [supply_register, if_true]
    · have hlt : (c ≤ m ∧ m < c + (n + 1)) ↔ (c ≤ m ∧ m < c + n) := by omega
      simp only [supply_register, hm, if_false, hlt]
      exact ih

theorem core_num_eq : ARM_CORE_NUM_FT_COLLECT_REGS = 26 := rfl

theorem vfpv2_num_eq : ARM_VFPV2_NUM_FT_COLLECT_REGS = 16 := rfl

theorem vfpv3_num_eq : ARM_VFPV3_NUM_FT_COLLECT_REGS = 32 := rfl

theorem vfpv2_regmap_entry :
    ∀ i, i < 16 → arm_vfpv2_ft_collect_regmap.getD i 0 = 64 + 8 * (i : Int) := by
  decide

theorem vfpv3_regmap_entry :
    ∀ i, i < 32 → arm_vfpv3_ft_collect_regmap.getD i 0 = 64 + 8 * (i : Int) := by
  decide

/-- Closed form of the decoder, register by register: the stack pointer,
then the extension registers of the descriptor, then the core registers that
have an offset; every other register keeps its value. -/
theorem supply_apply (ipa_tdesc : target_desc) (big_endian : Bool) (cache : regcache)
    (buf : byte_ptr) (m : Nat) :
    supply_fast_tracepoint_registers ipa_tdesc big_endian cache buf m =
      if m = 13 then
        (uint32_object big_endian
          ((buf.addr % 2 ^ 32 + 16 * 4 + extension_register_count ipa_tdesc * 8) % 2 ^ 32)).read
          (register_size 13)
      else if 26 ≤ m ∧ m < 26 + extension_register_count ipa_tdesc then
        (buf.offset (64 + 8 * ((m - 26 : Nat) : Int))).read (register_size m)
      else if m < 26 ∧ arm_core_ft_collect_regmap.getD m 0 ≠ FT_CR_UNAVAIL then
        (buf.offset (arm_core_ft_collect_regmap.getD m 0)).read (register_size m)
      else cache m := by
  by_cases h13 : m = 13
  · subst h13
    cases ipa_tdesc <;>
      simp [supply_fast_tracepoint_registers, supply_register, extension_register_count,
        vfpv2_num_eq, vfpv3_num_eq]
  · rw [if_neg h13]
    cases ipa_tdesc
    · simp only [supply_fast_tracepoint_registers, supply_register, h13, if_false,
        reduceCtorEq, or_self, extension_register_count, core_num_eq]
      rw [core_loop_apply]
      have hno : ¬ (26 ≤ m ∧ m < 26 + 0) := by omega
      rw [if_neg hno]
    · simp only [supply_fast_tracepoint_registers, supply_register, h13, if_false, if_true,
        reduceCtorEq, or_self, extension_register_count, core_num_eq, vfpv2_num_eq]
      rw [ext_loop_apply, core_loop_apply]
      by_cases hin : 26 ≤ m ∧ m < 26 + 16
      · rw [if_pos hin, if_pos hin, vfpv2_regmap_entry _ (by omega)]
      · rw [if_neg hin, if_neg hin]
    · simp only [supply_fast_tracepoint_registers, supply_register, h13, if_false, if_true,
        reduceCtorEq, or_true, extension_register_count, core_num_eq, vfpv3_num_eq]
      rw [ext_loop_apply, core_loop_apply]
      by_cases hin : 26 ≤ m ∧ m < 26 + 32
      · rw [if_pos hin, if_pos hin, vfpv3_regmap_entry _ (by omega)]
      · rw [if_neg hin, if_neg hin]
    · simp only [supply_fast_tracepoint_registers, supply_register, h13, if_false, if_true,
        reduceCtorEq, true_or, extension_register_count, core_num_eq, vfpv3_num_eq]
      rw [ext_loop_apply, core_loop_apply]
      by_cases hin : 26 ≤ m ∧ m < 26 + 32
      · rw [if_pos hin, if_pos hin, vfpv3_regmap_entry _ (by omega)]
      · rw [if_neg hin, if_neg hin]

/-! ### The decoder: registers read from the buffer -/

theorem read_word (buf : byte_ptr) (o : Int) :
    (buf.offset o).read 4 = [buf.load o, buf.load (o + 1), buf.load (o + 2), buf.load (o + 3)] := by
  simp [byte_ptr.read, byte_ptr.offset, List.range, List.range.loop]

theorem read_double_word (buf : byte_ptr) (o : Int) :
    (buf.offset o).read 8 =
      [buf.load o, buf.load (o + 1), buf.load (o + 2), buf.load (o + 3),
        buf.load (o + 4), buf.load (o + 5), buf.load (o + 6), buf.load (o + 7)] := by
  simp [byte_ptr.read, byte_ptr.offset, List.range, List.range.loop]

theorem register_size_core (m : Nat) (h : m < 26) : register_size m = 4 := by
  simp [register_size, core_num_eq, h, GPR_SIZE]

theorem register_size_ext (m : Nat) (h : 26 ≤ m) : register_size m = 8 := by
  have h26 : ¬ m < 26 := by omega
  simp [register_size, core_num_eq, h26, FPR_SIZE]

theorem core_regmap_gpr : ∀ n, n ≤ 12 → arm_core_ft_collect_regmap.getD n 0 = 8 + 4 * (n : Int) := by
  decide

theorem core_regmap_avail (i : Nat) (hi : i < 26)
    (hs : arm_core_ft_collect_regmap.getD i 0 ≠ FT_CR_UNAVAIL) : i ≠ 13 ∧ ¬ (26 ≤ i) := by
  refine ⟨?_, by omega⟩
  intro h
  subst h
  exact hs (by decide)

theorem supply_core_apply (ipa_tdesc : target_desc) (big_endian : Bool) (cache : regcache)
    (buf : byte_ptr) (i : Nat) (hi : i < 26)
    (hs : arm_core_ft_collect_regmap.getD i 0 ≠ FT_CR_UNAVAIL) :
    supply_fast_tracepoint_registers ipa_tdesc big_endian cache buf i =
      (buf.offset (arm_core_ft_collect_regmap.getD i 0)).read 4 := by
  obtain ⟨h13, h26⟩ := core_regmap_avail i hi hs
  rw [supply_apply, if_neg h13, if_neg (fun h => h26 h.1), if_pos ⟨hi, hs⟩,
    register_size_core i hi]

/-- C7: for every buffer and every selected descriptor, after
`supply_fast_tracepoint_registers` the cache holds, at each core register
index whose entry of `arm_core_ft_collect_regmap` is not the sentinel, the
4 bytes found at that entry's offset in the buffer: register `n` for
`n <= 12` the word at offset `8 + 4 n`, register 14 the word at offset 60,
register 15 the word at offset 0 and register 25 the word at offset 4. -/
theorem supply_core_registers (ipa_tdesc : target_desc) (big_endian : Bool) (cache : regcache)
    (buf : byte_ptr) :
    (∀ i, i < ARM_CORE_NUM_FT_COLLECT_REGS →
      arm_core_ft_collect_regmap.getD i 0 ≠ FT_CR_UNAVAIL →
      supply_fast_tracepoint_registers ipa_tdesc big_endian cache buf i =
        [buf.load (arm_core_ft_collect_regmap.getD i 0),
          buf.load (arm_core_ft_collect_regmap.getD i 0 + 1),
          buf.load (arm_core_ft_collect_regmap.getD i 0 + 2),
          buf.load (arm_core_ft_collect_regmap.getD i 0 + 3)]) ∧
    (∀ n : Nat, n ≤ 12 →
      supply_fast_tracepoint_registers ipa_tdesc big_endian cache buf n =
        [buf.load (8 + 4 * (n : Int)), buf.load (8 + 4 * (n : Int) + 1),
          buf.load (8 + 4 * (n : Int) + 2), buf.load (8 + 4 * (n : Int) + 3)]) ∧
    supply_fast_tracepoint_registers ipa_tdesc big_endian cache buf 14 =
      [buf.load 60, buf.load 61, buf.load 62, buf.load 63] ∧
    supply_fast_tracepoint_registers ipa_tdesc big_endian cache buf 15 =
      [buf.load 0, buf.load 1, buf.load 2, buf.load 3] ∧
    supply_fast_tracepoint_registers ipa_tdesc big_endian cache buf 25 =
      [buf.load 4, buf.load 5, buf.load 6, buf.load 7] := by
  refine ⟨?_, ?_, ?_, ?_, ?_⟩
  · intro i hi hs
    rw [supply_core_apply ipa_tdesc big_endian cache buf i hi hs, read_word]
  · intro n hn
    have hs : arm_core_ft_collect_regmap.getD n 0 ≠ FT_CR_UNAVAIL := by
      rw [core_regmap_gpr n hn]
      simp only [FT_CR_UNAVAIL]
      omega
    rw [supply_core_apply ipa_tdesc big_endian cache buf n (by omega) hs, read_word,
      core_regmap_gpr n hn]
  · rw [supply_core_apply ipa_tdesc big_endian cache buf 14 (by decide) (by decide), read_word]
    rfl
  · rw [supply_core_apply ipa_tdesc big_endian cache buf 15 (by decide) (by decide), read_word]
    rfl
  · rw [supply_core_apply ipa_tdesc big_endian cache buf 25 (by decide) (by decide), read_word]
    rfl

theorem supply_core_registers_witness :
    (5 ≤ 12 ∧
      supply_fast_tracepoint_registers tdesc_arm_with_vfpv2 false (fun _ => [])
          { addr := 4096, load := fun k => (2 * k + 1).toNat } 5 = [57, 59, 61, 63]) ∧
    (14 < ARM_CORE_NUM_FT_COLLECT_REGS ∧
      arm_core_ft_collect_regmap.getD 14 0 ≠ FT_CR_UNAVAIL ∧
      supply_fast_tracepoint_registers tdesc_arm_with_vfpv2 false (fun _ => [])
          { addr := 4096, load := fun k => (2 * k + 1).toNat } 14 = [121, 123, 125, 127]) :=
  ⟨⟨by decide,
      (supply_core_registers tdesc_arm_with_vfpv2 false (fun _ => [])
        { addr := 4096, load := fun k => (2 * k + 1).toNat }).2.1 5 (by decide)⟩,
    ⟨by decide, by decide,
      (supply_core_registers tdesc_arm_with_vfpv2 false (fun _ => [])
        { addr := 4096, load := fun k => (2 * k + 1).toNat }).1 14 (by decide) (by decide)⟩⟩

theorem supply_ext_apply (ipa_tdesc : target_desc) (big_endian : Bool) (cache : regcache)
    (buf : byte_ptr) (i : Nat) (hi : i < extension_register_count ipa_tdesc) :
    supply_fast_tracepoint_registers ipa_tdesc big_endian cache buf (26 + i) =
      (buf.offset (64 + 8 * (i : Int))).read 8 := by
  have h13 : 26 + i ≠ 13 := by omega
  have hin : 26 ≤ 26 + i ∧ 26 + i < 26 + extension_register_count ipa_tdesc := by omega
  have hidx : 26 + i - 26 = i := by omega
  rw [supply_apply, if_neg h13, if_pos hin, register_size_ext (26 + i) (by omega), hidx]

/-- C8: for every buffer, with `N = 16` under `tdesc_arm_with_vfpv2` and
`N = 32` under `tdesc_arm_with_vfpv3` and `tdesc_arm_with_neon`, after
`supply_fast_tracepoint_registers` the cache holds at index `26 + i`, for
every `i < N`, the 8 bytes found at offset `64 + 8 i` of the buffer, 26 being
the core register count `ARM_CORE_NUM_FT_COLLECT_REGS`. -/
theorem supply_extension_registers (big_endian : Bool) (cache : regcache) (buf : byte_ptr) :
    ARM_CORE_NUM_FT_COLLECT_REGS = 26 ∧
    (∀ i : Nat, i < 16 →
      supply_fast_tracepoint_registers tdesc_arm_with_vfpv2 big_endian cache buf (26 + i) =
        [buf.load (64 + 8 * (i : Int)), buf.load (64 + 8 * (i : Int) + 1),
          buf.load (64 + 8 * (i : Int) + 2), buf.load (64 + 8 * (i : Int) + 3),
          buf.load (64 + 8 * (i : Int) + 4), buf.load (64 + 8 * (i : Int) + 5),
          buf.load (64 + 8 * (i : Int) + 6), buf.load (64 + 8 * (i : Int) + 7)]) ∧
    (∀ i : Nat, i < 32 →
      supply_fast_tracepoint_registers tdesc_arm_with_vfpv3 big_endian cache buf (26 + i) =
        [buf.load (64 + 8 * (i : Int)), buf.load (64 + 8 * (i : Int) + 1),
          buf.load (64 + 8 * (i : Int) + 2), buf.load (64 + 8 * (i : Int) + 3),
          buf.load (64 + 8 * (i : Int) + 4), buf.load (64 + 8 * (i : Int) + 5),
          buf.load (64 + 8 * (i : Int) + 6), buf.load (64 + 8 * (i : Int) + 7)]) ∧
    (∀ i : Nat, i < 32 →
      supply_fast_tracepoint_registers tdesc_arm_with_neon big_endian cache buf (26 + i) =
        [buf.load (64 + 8 * (i : Int)), buf.load (64 + 8 * (i : Int) + 1),
          buf.load (64 + 8 * (i : Int) + 2), buf.load (64 + 8 * (i : Int) + 3),
          buf.load (64 + 8 * (i : Int) + 4), buf.load (64 + 8 * (i : Int) + 5),
          buf.load (64 + 8 * (i : Int) + 6), buf.load (64 + 8 * (i : Int) + 7)]) := by
  refine ⟨rfl, ?_, ?_, ?_⟩
  · intro i hi
    rw [supply_ext_apply tdesc_arm_with_vfpv2 big_endian cache buf i hi, read_double_word]
  · intro i hi
    rw [supply_ext_apply tdesc_arm_with_vfpv3 big_endian cache buf i hi, read_double_word]
  · intro i hi
    rw [supply_ext_apply tdesc_arm_with_neon big_endian cache buf i hi, read_double_word]

theorem supply_extension_registers_witness :
    (15 < 16 ∧
      supply_fast_tracepoint_registers tdesc_arm_with_vfpv2 true (fun _ => [])
          { addr := 4096, load := fun k => (k % 256).toNat } (26 + 15) =
        [184, 185, 186, 187, 188, 189, 190, 191]) ∧
    (31 < 32 ∧
      supply_fast_tracepoint_registers tdesc_arm_with_vfpv3 true (fun _ => [])
          { addr := 4096, load := fun k => (k % 256).toNat } (26 + 31) =
        [56, 57, 58, 59, 60, 61, 62, 63]) ∧
    (0 < 32 ∧
      supply_fast_tracepoint_registers tdesc_arm_with_neon true (fun _ => [])
          { addr := 4096, load := fun k => (k % 256).toNat } (26 + 0) =
        [64, 65, 66, 67, 68, 69, 70, 71]) :=
  ⟨⟨by decide,
      (supply_extension_registers true (fun _ => [])
        { addr := 4096, load := fun k => (k % 256).toNat }).2.1 15 (by decide)⟩,
    ⟨by decide,
      (supply_extension_registers true (fun _ => [])
        { addr := 4096, load := fun k => (k % 256).toNat }).2.2.1 31 (by decide)⟩,
    ⟨by decide,
      (supply_extension_registers true (fun _ => [])
        { addr := 4096, load := fun k => (k % 256).toNat }).2.2.2 0 (by decide)⟩⟩

/-! ### The decoder: the stack pointer -/

theorem read_uint32_object (big_endian : Bool) (v : Nat) :
    (uint32_object big_endian v).read 4 =
      if big_endian then [v / 256 ^ 3 % 256, v / 256 ^ 2 % 256, v / 256 % 256, v % 256]
      else [v % 256, v / 256 % 256, v / 256 ^ 2 % 256, v / 256 ^ 3 % 256] := by
  cases big_endian <;>
    simp [byte_ptr.read, uint32_object, List.range, List.range.loop]

theorem uint32_value_object (big_endian : Bool) (v : Nat) (hv : v < 2 ^ 32) :
    uint32_value big_endian ((uint32_object big_endian v).read 4) = v := by
  rw [read_uint32_object]
  cases big_endian
  · simp only [uint32_value, Bool.false_eq_true, if_false, List.getD_cons_zero,
      List.getD_cons_succ]
    norm_num at hv ⊢
    omega
  · simp only [uint32_value, if_true, List.getD_cons_zero, List.getD_cons_succ]
    norm_num at hv ⊢
    omega

theorem supply_sp_apply (ipa_tdesc : target_desc) (big_endian : Bool) (cache : regcache)
    (buf : byte_ptr) :
    supply_fast_tracepoint_registers ipa_tdesc big_endian cache buf 13 =
      (uint32_object big_endian
        ((buf.addr + 64 + 8 * extension_register_count ipa_tdesc) % 2 ^ 32)).read 4 := by
  have hval : (buf.addr % 2 ^ 32 + 16 * 4 + extension_register_count ipa_tdesc * 8) % 2 ^ 32 =
      (buf.addr + 64 + 8 * extension_register_count ipa_tdesc) % 2 ^ 32 := by
    omega
  rw [supply_apply, if_pos rfl, register_size_core 13 (by decide), hval]

/-- C9: for every buffer at address `buffer_base` and every selected
descriptor with extension register count `N` (0, 16, 32 or 32), the decoder
writes at register index 13 the number `buffer_base + 64 + 8 N` as a 32 bit
register holds it: the four bytes written are those of the sum taken in
`uint32_t`, and whenever the buffer ends below `2 ^ 32`, that is
`buffer_base + 64 + 8 N < 2 ^ 32`, as the end of a buffer in a 32 bit address
space does, the register holds `buffer_base + 64 + 8 N` itself.  The value
does not depend on the content of the buffer, and under the 16 register
descriptor it is `buffer_base + 64 + 128`. -/
theorem supply_stack_pointer (ipa_tdesc : target_desc) (big_endian : Bool) (cache : regcache)
    (buf : byte_ptr) :
    supply_fast_tracepoint_registers ipa_tdesc big_endian cache buf 13 =
        (uint32_object big_endian
          ((buf.addr + 64 + 8 * extension_register_count ipa_tdesc) % 2 ^ 32)).read 4 ∧
    uint32_value big_endian (supply_fast_tracepoint_registers ipa_tdesc big_endian cache buf 13) =
        (buf.addr + 64 + 8 * extension_register_count ipa_tdesc) % 2 ^ 32 ∧
    (buf.addr + 64 + 8 * extension_register_count ipa_tdesc < 2 ^ 32 →
      uint32_value big_endian
          (supply_fast_tracepoint_registers ipa_tdesc big_endian cache buf 13) =
        buf.addr + 64 + 8 * extension_register_count ipa_tdesc) ∧
    (∀ content : Int → Nat,
      supply_fast_tracepoint_registers ipa_tdesc big_endian cache
          { addr := buf.addr, load := content } 13 =
        supply_fast_tracepoint_registers ipa_tdesc big_endian cache buf 13) ∧
    (ipa_tdesc = tdesc_arm_with_vfpv2 →
      uint32_value big_endian
          (supply_fast_tracepoint_registers ipa_tdesc big_endian cache buf 13) =
        (buf.addr + 64 + 128) % 2 ^ 32) ∧
    (ipa_tdesc = tdesc_arm_with_vfpv2 → buf.addr + 64 + 128 < 2 ^ 32 →
      uint32_value big_endian
          (supply_fast_tracepoint_registers ipa_tdesc big_endian cache buf 13) =
        buf.addr + 64 + 128) := by
  have hval : uint32_value big_endian
      (supply_fast_tracepoint_registers ipa_tdesc big_endian cache buf 13) =
      (buf.addr + 64 + 8 * extension_register_count ipa_tdesc) % 2 ^ 32 := by
    rw [supply_sp_apply, uint32_value_object big_endian _ (Nat.mod_lt _ (by norm_num))]
  refine ⟨supply_sp_apply ipa_tdesc big_endian cache buf, hval, ?_, ?_, ?_, ?_⟩
  · intro hlt
    rw [hval, Nat.mod_eq_of_lt hlt]
  · intro content
    rw [supply_sp_apply, supply_sp_apply]
  · intro h2
    rw [hval, h2]
    rfl
  · intro h2 hlt
    rw [hval, h2]
    exact Nat.mod_eq_of_lt hlt

theorem supply_stack_pointer_witness :
    (4096 + 64 + 8 * extension_register_count tdesc_arm_with_vfpv2 < 2 ^ 32 ∧
      uint32_value false
          (supply_fast_tracepoint_registers tdesc_arm_with_vfpv2 false (fun _ => [])
            { addr := 4096, load := fun k => (k % 256).toNat } 13) =
        4096 + 64 + 8 * extension_register_count tdesc_arm_with_vfpv2) ∧
    uint32_value false
        (supply_fast_tracepoint_registers tdesc_arm_with_vfpv2 false (fun _ => [])
          { addr := 4096, load := fun k => (k % 256).toNat } 13) =
      (4096 + 64 + 128) % 2 ^ 32 ∧
    (4096 + 64 + 128 < 2 ^ 32 ∧
      uint32_value true
          (supply_fast_tracepoint_registers tdesc_arm_with_vfpv2 true (fun _ => [])
            { addr := 4096, load := fun k => (k % 256).toNat } 13) =
        4096 + 64 + 128) :=
  ⟨⟨by decide,
      (supply_stack_pointer tdesc_arm_with_vfpv2 false (fun _ => [])
        { addr := 4096, load := fun k => (k % 256).toNat }).2.2.1 (by decide)⟩,
    (supply_stack_pointer tdesc_arm_with_vfpv2 false (fun _ => [])
      { addr := 4096, load := fun k => (k % 256).toNat }).2.2.2.2.1 rfl,
    ⟨by decide,
      (supply_stack_pointer tdesc_arm_with_vfpv2 true (fun _ => [])
        { addr := 4096, load := fun k => (k % 256).toNat }).2.2.2.2.2 rfl (by decide)⟩⟩

/-! ### The decoder: registers left alone -/

/-- C10: for every initial cache, buffer and selected descriptor with
extension register count `N`, the decoder writes exactly the indices
`0 .. 15`, `25` and `26 .. 26 + N - 1`.  The indices `16 .. 24` and every
index from `26 + N` on keep the value of the initial cache; under
`tdesc_arm` so does every index from 26 on.  At each index of the written
set the result does not depend on the initial cache, and some initial cache
has a different value there. -/
theorem supply_written_registers (ipa_tdesc : target_desc) (big_endian : Bool)
    (cache : regcache) (buf : byte_ptr) :
    (∀ m : Nat, 16 ≤ m → m ≤ 24 →
      supply_fast_tracepoint_registers ipa_tdesc big_endian cache buf m = cache m) ∧
    (∀ m : Nat, 26 + extension_register_count ipa_tdesc ≤ m →
      supply_fast_tracepoint_registers ipa_tdesc big_endian cache buf m = cache m) ∧
    (∀ m : Nat, 26 ≤ m →
      supply_fast_tracepoint_registers tdesc_arm big_endian cache buf m = cache m) ∧
    (∀ m : Nat, m ≤ 15 ∨ m = 25 ∨ (26 ≤ m ∧ m < 26 + extension_register_count ipa_tdesc) →
      (∀ cache0 : regcache,
        supply_fast_tracepoint_registers ipa_tdesc big_endian cache0 buf m =
          supply_fast_tracepoint_registers ipa_tdesc big_endian cache buf m) ∧
      (∃ cache0 : regcache,
        supply_fast_tracepoint_registers ipa_tdesc big_endian cache0 buf m ≠ cache0 m)) := by
  have hsent : ∀ m : Nat, 16 ≤ m → m ≤ 24 → arm_core_ft_collect_regmap.getD m 0 = FT_CR_UNAVAIL := by
    decide
  have havail : ∀ m : Nat, m ≤ 15 ∨ m = 25 → m ≠ 13 →
      arm_core_ft_collect_regmap.getD m 0 ≠ FT_CR_UNAVAIL := by
    intro m hm h13
    have hlt : m < 26 := by omega
    revert hm h13
    revert m
    decide
  have hframe : ∀ (tdesc : target_desc) (m : Nat),
      (16 ≤ m ∧ m ≤ 24) ∨ 26 + extension_register_count tdesc ≤ m →
      supply_fast_tracepoint_registers tdesc big_endian cache buf m = cache m := by
    intro tdesc m hm
    have h13 : m ≠ 13 := by omega
    have hext : ¬ (26 ≤ m ∧ m < 26 + extension_register_count tdesc) := by omega
    have hcore : ¬ (m < 26 ∧ arm_core_ft_collect_regmap.getD m 0 ≠ FT_CR_UNAVAIL) := by
      rintro ⟨hlt, hs⟩
      rcases hm with hm | hm
      · exact hs (hsent m hm.1 hm.2)
      · omega
    rw [supply_apply, if_neg h13, if_neg hext, if_neg hcore]
  have hindep : ∀ (m : Nat) (c1 c2 : regcache),
      m ≤ 15 ∨ m = 25 ∨ (26 ≤ m ∧ m < 26 + extension_register_count ipa_tdesc) →
      supply_fast_tracepoint_registers ipa_tdesc big_endian c1 buf m =
        supply_fast_tracepoint_registers ipa_tdesc big_endian c2 buf m := by
    intro m c1 c2 hm
    rw [supply_apply, supply_apply]
    by_cases h13 : m = 13
    · rw [if_pos h13, if_pos h13]
    · rw [if_neg h13, if_neg h13]
      by_cases hext : 26 ≤ m ∧ m < 26 + extension_register_count ipa_tdesc
      · rw [if_pos hext, if_pos hext]
      · have hc : m < 26 ∧ arm_core_ft_collect_regmap.getD m 0 ≠ FT_CR_UNAVAIL := by
          refine ⟨by omega, havail m ?_ h13⟩
          omega
        rw [if_neg hext, if_neg hext, if_pos hc, if_pos hc]
  refine ⟨fun m h1 h2 => hframe ipa_tdesc m (Or.inl ⟨h1, h2⟩),
    fun m h => hframe ipa_tdesc m (Or.inr h),
    fun m h => hframe tdesc_arm m (Or.inr (by simpa [extension_register_count] using h)),
    ?_⟩
  intro m hm
  refine ⟨fun cache0 => hindep m cache0 cache hm, ?_⟩
  by_cases hnil : supply_fast_tracepoint_registers ipa_tdesc big_endian cache buf m = []
  · refine ⟨fun _ => [0], ?_⟩
    rw [hindep m _ cache hm, hnil]
    simp
  · refine ⟨fun _ => [], ?_⟩
    rw [hindep m _ cache hm]
    exact hnil

theorem supply_written_registers_witness :
    (16 ≤ 20 ∧ 20 ≤ 24 ∧
      supply_fast_tracepoint_registers tdesc_arm_with_vfpv2 false (fun m => [m, m, m])
          { addr := 4096, load := fun k => (k % 256).toNat } 20 = [20, 20, 20]) ∧
    (26 + extension_register_count tdesc_arm_with_vfpv2 ≤ 42 ∧
      supply_fast_tracepoint_registers tdesc_arm_with_vfpv2 false (fun m => [m, m, m])
          { addr := 4096, load := fun k => (k % 256).toNat } 42 = [42, 42, 42]) ∧
    (26 ≤ 26 ∧
      supply_fast_tracepoint_registers tdesc_arm false (fun m => [m, m, m])
          { addr := 4096, load := fun k => (k % 256).toNat } 26 = [26, 26, 26]) ∧
    ((41 ≤ 15 ∨ 41 = 25 ∨ (26 ≤ 41 ∧ 41 < 26 + extension_register_count tdesc_arm_with_vfpv2)) ∧
      supply_fast_tracepoint_registers tdesc_arm_with_vfpv2 false (fun _ => [])
          { addr := 4096, load := fun k => (k % 256).toNat } 41 =
        supply_fast_tracepoint_registers tdesc_arm_with_vfpv2 false (fun m => [m, m, m])
          { addr := 4096, load := fun k => (k % 256).toNat } 41) :=
  ⟨⟨by decide, by decide,
      (supply_written_registers tdesc_arm_with_vfpv2 false (fun m => [m, m, m])
        { addr := 4096, load := fun k => (k % 256).toNat }).1 20 (by decide) (by decide)⟩,
    ⟨by decide,
      (supply_written_registers tdesc_arm_with_vfpv2 false (fun m => [m, m, m])
        { addr := 4096, load := fun k => (k % 256).toNat }).2.1 42 (by decide)⟩,
    ⟨by decide,
      (supply_written_registers tdesc_arm_with_vfpv2 false (fun m => [m, m, m])
        { addr := 4096, load := fun k => (k % 256).toNat }).2.2.1 26 (by decide)⟩,
    ⟨by decide,
      ((supply_written_registers tdesc_arm_with_vfpv2 false (fun m => [m, m, m])
        { addr := 4096, load := fun k => (k % 256).toNat }).2.2.2 41 (by decide)).1
        (fun _ => [])⟩⟩

/-! ### The decoder: descriptors with the same layout -/

/-- C11: for every initial cache and every buffer, the decoder run with
`tdesc_arm_with_neon` selected produces the same cache, at every register
index, as run with `tdesc_arm_with_vfpv3` selected. -/
theorem supply_neon_eq_vfpv3 (big_endian : Bool) (cache : regcache) (buf : byte_ptr) :
    supply_fast_tracepoint_registers tdesc_arm_with_neon big_endian cache buf =
      supply_fast_tracepoint_registers tdesc_arm_with_vfpv3 big_endian cache buf := by
  funext m
  rw [supply_apply, supply_apply]
  rfl

/-! ### The capability resolver: the fallback lookup -/

theorem get_hwcap_scan_first (val : Nat) (pre : List (Nat × Nat)) (r : Nat × Nat)
    (post : List (Nat × Nat)) (hpre : ∀ p ∈ pre, p.1 ≠ AT_HWCAP) (hr : r.1 = AT_HWCAP) :
    arm_ipa_get_hwcap_scan val (pre ++ r :: post) = r.2 := by
  induction pre with
  | nil => simp [arm_ipa_get_hwcap_scan, hr]
  | cons p pre ih =>
    have hp : p.1 ≠ AT_HWCAP := hpre p (List.mem_cons_self p pre)
    have hrest : ∀ q ∈ pre, q.1 ≠ AT_HWCAP := fun q hq => hpre q (List.mem_cons_of_mem p hq)
    simp only [List.cons_append, arm_ipa_get_hwcap_scan, hp, if_false]
    exact ih hrest

theorem get_hwcap_scan_none (val : Nat) (records : List (Nat × Nat))
    (hno : ∀ p ∈ records, p.1 ≠ AT_HWCAP) : arm_ipa_get_hwcap_scan val records = val := by
  induction records with
  | nil => rfl
  | cons p rest ih =>
    have hp : p.1 ≠ AT_HWCAP := hno p (List.mem_cons_self p rest)
    have hrest : ∀ q ∈ rest, q.1 ≠ AT_HWCAP := fun q hq => hno q (List.mem_cons_of_mem p hq)
    simp only [arm_ipa_get_hwcap_scan, hp, if_false]
    exact ih hrest

/-- C13: in the fallback lookup of `arm_ipa_get_hwcap`, over the records read
from the auxiliary vector file: when some record has key `AT_HWCAP`, the
result is the value of the first such record; when the file cannot be opened,
is empty, or holds no record with that key, the value is left as it was, and
from its initial zero `arm_ipa_read_hwcap` returns `tdesc_arm`, a descriptor
like any other, there being no error result. -/
theorem get_hwcap_fallback :
    (∀ (val : Nat) (pre : List (Nat × Nat)) (r : Nat × Nat) (post : List (Nat × Nat)),
      (∀ p ∈ pre, p.1 ≠ AT_HWCAP) → r.1 = AT_HWCAP →
      arm_ipa_get_hwcap (hwcap_source.proc_self_auxv (some (pre ++ r :: post))) val = r.2) ∧
    (∀ val : Nat, arm_ipa_get_hwcap (hwcap_source.proc_self_auxv none) val = val) ∧
    (∀ val : Nat, arm_ipa_get_hwcap (hwcap_source.proc_self_auxv (some [])) val = val) ∧
    (∀ (val : Nat) (records : List (Nat × Nat)), (∀ p ∈ records, p.1 ≠ AT_HWCAP) →
      arm_ipa_get_hwcap (hwcap_source.proc_self_auxv (some records)) val = val) ∧
    arm_ipa_read_hwcap (hwcap_source.proc_self_auxv none) = tdesc_arm ∧
    arm_ipa_read_hwcap (hwcap_source.proc_self_auxv (some [])) = tdesc_arm ∧
    (∀ records : List (Nat × Nat), (∀ p ∈ records, p.1 ≠ AT_HWCAP) →
      arm_ipa_read_hwcap (hwcap_source.proc_self_auxv (some records)) = tdesc_arm) := by
  refine ⟨?_, fun _ => rfl, fun _ => rfl, ?_, rfl, rfl, ?_⟩
  · intro val pre r post hpre hr
    exact get_hwcap_scan_first val pre r post hpre hr
  · intro val records hno
    exact get_hwcap_scan_none val records hno
  · intro records hno
    have h0 : arm_ipa_get_hwcap (hwcap_source.proc_self_auxv (some records)) 0 = 0 :=
      get_hwcap_scan_none 0 records hno
    unfold arm_ipa_read_hwcap
    simp [h0]

theorem get_hwcap_fallback_witness :
    arm_ipa_get_hwcap
        (hwcap_source.proc_self_auxv (some ([(33, 7), (6, 4096)] ++ (16, 4160) :: [(16, 64), (0, 0)])))
        0 = 4160 ∧
      arm_ipa_get_hwcap (hwcap_source.proc_self_auxv (some [(33, 7), (6, 4096), (0, 0)])) 5 = 5 ∧
      arm_ipa_read_hwcap (hwcap_source.proc_self_auxv (some [(33, 7), (6, 4096), (0, 0)])) =
        tdesc_arm :=
  ⟨get_hwcap_fallback.1 0 [(33, 7), (6, 4096)] (16, 4160) [(16, 64), (0, 0)]
      (by decide) (by decide),
    get_hwcap_fallback.2.2.2.1 5 [(33, 7), (6, 4096), (0, 0)] (by decide),
    get_hwcap_fallback.2.2.2.2.2.2 [(33, 7), (6, 4096), (0, 0)] (by decide)⟩

/-! ### The decoder: the stack pointer in 32 bit arithmetic -/

/-- C15: the number written at index 13 by the decoder is computed in 32 bit
unsigned arithmetic: it is `(buffer_base + 64 + 8 N) mod 2 ^ 32`, which is
`buffer_base + 64 + 8 N` exactly when that sum is below `2 ^ 32` and wraps
around otherwise; with `buffer_base = 2 ^ 32 - 64` under `tdesc_arm` it is
0. -/
theorem supply_stack_pointer_wraps (ipa_tdesc : target_desc) (big_endian : Bool)
    (cache : regcache) (buf : byte_ptr) :
    uint32_value big_endian (supply_fast_tracepoint_registers ipa_tdesc big_endian cache buf 13) =
        (buf.addr + 64 + 8 * extension_register_count ipa_tdesc) % 2 ^ 32 ∧
    (uint32_value big_endian (supply_fast_tracepoint_registers ipa_tdesc big_endian cache buf 13) =
        buf.addr + 64 + 8 * extension_register_count ipa_tdesc ↔
      buf.addr + 64 + 8 * extension_register_count ipa_tdesc < 2 ^ 32) ∧
    uint32_value big_endian
        (supply_fast_tracepoint_registers tdesc_arm big_endian cache
          { addr := 2 ^ 32 - 64, load := buf.load } 13) = 0 := by
  have hval : ∀ (tdesc : target_desc) (b : byte_ptr),
      uint32_value big_endian (supply_fast_tracepoint_registers tdesc big_endian cache b 13) =
        (b.addr + 64 + 8 * extension_register_count tdesc) % 2 ^ 32 := by
    intro tdesc b
    rw [supply_sp_apply, uint32_value_object big_endian _ (Nat.mod_lt _ (by norm_num))]
  refine ⟨hval ipa_tdesc buf, ?_, ?_⟩
  · rw [hval ipa_tdesc buf]
    constructor
    · intro h
      rw [← h]
      exact Nat.mod_lt _ (by norm_num)
    · intro h
      exact Nat.mod_eq_of_lt h
  · rw [hval tdesc_arm]
    simp only [extension_register_count]
    norm_num

/-! ### The offset tables -/

/-- C16: `arm_core_ft_collect_regmap` has 26 entries, of which exactly 10 are
the sentinel, at index 13 and at the indices 16 to 24.  Its other entries are
pairwise distinct and are exactly the sixteen word offsets 0, 4, ..., 60:
each word of the 64 byte fixed region is the entry of exactly one register,
and no two registers read overlapping bytes. -/
theorem core_regmap_layout :
    arm_core_ft_collect_regmap.length = 26 ∧
    ARM_CORE_NUM_FT_COLLECT_REGS = 26 ∧
    (arm_core_ft_collect_regmap.filter (fun o => o = FT_CR_UNAVAIL)).length = 10 ∧
    (∀ i : Nat, i < 26 →
      (arm_core_ft_collect_regmap.getD i 0 = FT_CR_UNAVAIL ↔ i = 13 ∨ (16 ≤ i ∧ i ≤ 24))) ∧
    (arm_core_ft_collect_regmap.filter (fun o => o ≠ FT_CR_UNAVAIL)).Nodup ∧
    (arm_core_ft_collect_regmap.filter (fun o => o ≠ FT_CR_UNAVAIL)).length = 16 ∧
    (∀ o : Int, o ∈ arm_core_ft_collect_regmap.filter (fun o => o ≠ FT_CR_UNAVAIL) →
      0 ≤ o ∧ o ≤ 60 ∧ o % 4 = 0) ∧
    (∀ k : Nat, k < 16 →
      ((List.range 26).filter
        (fun i => arm_core_ft_collect_regmap.getD i 0 = 4 * (k : Int))).length = 1) ∧
    (∀ i : Nat, i < 26 → ∀ j : Nat, j < 26 →
      (arm_core_ft_collect_regmap.getD i 0 ≠ FT_CR_UNAVAIL ∧
        arm_core_ft_collect_regmap.getD j 0 ≠ FT_CR_UNAVAIL ∧ i ≠ j) →
      arm_core_ft_collect_regmap.getD i 0 + 4 ≤ arm_core_ft_collect_regmap.getD j 0 ∨
        arm_core_ft_collect_regmap.getD j 0 + 4 ≤ arm_core_ft_collect_regmap.getD i 0) := by
  refine ⟨rfl, rfl, by decide, by decide, by decide, by decide, by decide, by decide, by decide⟩

theorem core_regmap_layout_witness :
    (14 < 26 ∧ (arm_core_ft_collect_regmap.getD 14 0 = FT_CR_UNAVAIL ↔
      14 = 13 ∨ (16 ≤ 14 ∧ 14 ≤ 24))) ∧
    (15 < 16 ∧
      ((List.range 26).filter
        (fun i => arm_core_ft_collect_regmap.getD i 0 = 4 * ((15 : Nat) : Int))).length = 1) ∧
    (arm_core_ft_collect_regmap.getD 15 0 + 4 ≤ arm_core_ft_collect_regmap.getD 25 0 ∨
      arm_core_ft_collect_regmap.getD 25 0 + 4 ≤ arm_core_ft_collect_regmap.getD 15 0) :=
  ⟨⟨by decide, core_regmap_layout.2.2.2.1 14 (by decide)⟩,
    ⟨by decide, core_regmap_layout.2.2.2.2.2.2.2.1 15 (by decide)⟩,
    core_regmap_layout.2.2.2.2.2.2.2.2 15 (by decide) 25 (by decide) (by decide)⟩

/-! ### The capability resolver: the bits that matter -/

theorem read_hwcap_by_bits (source : hwcap_source) :
    arm_ipa_read_hwcap source =
      if arm_ipa_get_hwcap source 0 &&& HWCAP_IWMMXT ≠ 0 then tdesc_arm
      else if arm_ipa_get_hwcap source 0 &&& HWCAP_VFP ≠ 0 then
        if arm_ipa_get_hwcap source 0 &&& HWCAP_NEON ≠ 0 then tdesc_arm_with_neon
        else if (arm_ipa_get_hwcap source 0 &&& HWCAP_VFPv3) |||
            (arm_ipa_get_hwcap source 0 &&& HWCAP_VFPv3D16) = HWCAP_VFPv3 then
          tdesc_arm_with_vfpv3
        else tdesc_arm_with_vfpv2
      else tdesc_arm := by
  unfold arm_ipa_read_hwcap
  dsimp only
  rw [Nat.and_or_distrib_left]
  by_cases h0 : arm_ipa_get_hwcap source 0 = 0
  · simp [h0]
  · simp only [h0, if_false]

/-- C17: the result of `arm_ipa_read_hwcap` depends only on the five bits
`HWCAP_VFP` (64), `HWCAP_IWMMXT` (512), `HWCAP_NEON` (4096), `HWCAP_VFPv3`
(8192) and `HWCAP_VFPv3D16` (16384): two capability bitmasks that agree on
these five bits give the same descriptor, and a bitmask, zero or not, with
none of the five bits set gives `tdesc_arm`. -/
theorem read_hwcap_five_bits :
    (∀ s1 s2 : hwcap_source,
      arm_ipa_get_hwcap s1 0 &&& HWCAP_VFP = arm_ipa_get_hwcap s2 0 &&& HWCAP_VFP →
      arm_ipa_get_hwcap s1 0 &&& HWCAP_IWMMXT = arm_ipa_get_hwcap s2 0 &&& HWCAP_IWMMXT →
      arm_ipa_get_hwcap s1 0 &&& HWCAP_NEON = arm_ipa_get_hwcap s2 0 &&& HWCAP_NEON →
      arm_ipa_get_hwcap s1 0 &&& HWCAP_VFPv3 = arm_ipa_get_hwcap s2 0 &&& HWCAP_VFPv3 →
      arm_ipa_get_hwcap s1 0 &&& HWCAP_VFPv3D16 = arm_ipa_get_hwcap s2 0 &&& HWCAP_VFPv3D16 →
      arm_ipa_read_hwcap s1 = arm_ipa_read_hwcap s2) ∧
    (∀ s : hwcap_source,
      arm_ipa_get_hwcap s 0 &&& HWCAP_VFP = 0 →
      arm_ipa_get_hwcap s 0 &&& HWCAP_IWMMXT = 0 →
      arm_ipa_get_hwcap s 0 &&& HWCAP_NEON = 0 →
      arm_ipa_get_hwcap s 0 &&& HWCAP_VFPv3 = 0 →
      arm_ipa_get_hwcap s 0 &&& HWCAP_VFPv3D16 = 0 →
      arm_ipa_read_hwcap s = tdesc_arm) := by
  constructor
  · intro s1 s2 hvfp hiwmmxt hneon hv3 hd16
    rw [read_hwcap_by_bits s1, read_hwcap_by_bits s2, hvfp, hiwmmxt, hneon, hv3, hd16]
  · intro s hvfp hiwmmxt _ _ _
    rw [read_hwcap_by_bits s, hvfp, hiwmmxt]
    rfl

theorem read_hwcap_five_bits_witness :
    arm_ipa_read_hwcap (hwcap_source.getauxval (64 + 8192 + 1 + 32768)) =
        arm_ipa_read_hwcap (hwcap_source.getauxval (64 + 8192)) ∧
      arm_ipa_get_hwcap (hwcap_source.getauxval (1 + 2 + 1024)) 0 ≠ 0 ∧
      arm_ipa_read_hwcap (hwcap_source.getauxval (1 + 2 + 1024)) = tdesc_arm ∧
      arm_ipa_read_hwcap (hwcap_source.getauxval 0) = tdesc_arm :=
  ⟨read_hwcap_five_bits.1 (hwcap_source.getauxval (64 + 8192 + 1 + 32768))
      (hwcap_source.getauxval (64 + 8192)) (by decide) (by decide) (by decide) (by decide)
      (by decide),
    by decide,
    read_hwcap_five_bits.2 (hwcap_source.getauxval (1 + 2 + 1024)) (by decide) (by decide)
      (by decide) (by decide) (by decide),
    read_hwcap_five_bits.2 (hwcap_source.getauxval 0) (by decide) (by decide)
      (by decide) (by decide) (by decide)⟩

/-! ### The decoder: the short table inside the long one -/

/-- C18: `arm_vfpv2_ft_collect_regmap` (16 entries) is a prefix of
`arm_vfpv3_ft_collect_regmap` (32 entries), and for every buffer the
registers at the cache indices 26 to 41 decoded under `tdesc_arm_with_vfpv2`
equal those decoded under `tdesc_arm_with_vfpv3` or `tdesc_arm_with_neon`
from the same buffer, whatever the initial caches are. -/
theorem vfpv2_prefix_of_vfpv3 :
    arm_vfpv2_ft_collect_regmap.length = 16 ∧
    arm_vfpv3_ft_collect_regmap.length = 32 ∧
    arm_vfpv3_ft_collect_regmap.take 16 = arm_vfpv2_ft_collect_regmap ∧
    (∃ rest : List Int, arm_vfpv3_ft_collect_regmap = arm_vfpv2_ft_collect_regmap ++ rest) ∧
    (∀ (big_endian : Bool) (c2 c3 : regcache) (buf : byte_ptr) (m : Nat), 26 ≤ m → m ≤ 41 →
      supply_fast_tracepoint_registers tdesc_arm_with_vfpv2 big_endian c2 buf m =
          supply_fast_tracepoint_registers tdesc_arm_with_vfpv3 big_endian c3 buf m ∧
        supply_fast_tracepoint_registers tdesc_arm_with_vfpv2 big_endian c2 buf m =
          supply_fast_tracepoint_registers tdesc_arm_with_neon big_endian c3 buf m) := by
  refine ⟨rfl, rfl, by decide, ⟨arm_vfpv3_ft_collect_regmap.drop 16, by decide⟩, ?_⟩
  intro big_endian c2 c3 buf m hlo hhi
  have h13 : m ≠ 13 := by omega
  have h2 : 26 ≤ m ∧ m < 26 + extension_register_count tdesc_arm_with_vfpv2 := by
    simp only [extension_register_count]
    omega
  have h3 : 26 ≤ m ∧ m < 26 + extension_register_count tdesc_arm_with_vfpv3 := by
    simp only [extension_register_count]
    omega
  have hn : 26 ≤ m ∧ m < 26 + extension_register_count tdesc_arm_with_neon := by
    simp only [extension_register_count]
    omega
  constructor
  · rw [supply_apply, supply_apply, if_neg h13, if_neg h13, if_pos h2, if_pos h3]
  · rw [supply_apply, supply_apply, if_neg h13, if_neg h13, if_pos h2, if_pos hn]

theorem vfpv2_prefix_of_vfpv3_witness :
    26 ≤ 41 ∧ 41 ≤ 41 ∧
      supply_fast_tracepoint_registers tdesc_arm_with_vfpv2 false (fun _ => [])
          { addr := 4096, load := fun k => (k % 256).toNat } 41 =
        supply_fast_tracepoint_registers tdesc_arm_with_vfpv3 false (fun m => [m])
          { addr := 4096, load := fun k => (k % 256).toNat } 41 :=
  ⟨by decide, by decide,
    (vfpv2_prefix_of_vfpv3.2.2.2.2 false (fun _ => []) (fun m => [m])
      { addr := 4096, load := fun k => (k % 256).toNat } 41 (by decide) (by decide)).1⟩

/-! ### The decoder: the reads it makes -/

theorem foldl_fst {α β : Type} (F : α → Nat → α) (body : α × β → Nat → α × β)
    (hbody : ∀ st i, (body st i).1 = F st.1 i) (l : List Nat) (st : α × β) :
    (l.foldl body st).1 = l.foldl F st.1 := by
  induction l generalizing st with
  | nil => rfl
  | cons i l ih =>
    rw [List.foldl_cons, List.foldl_cons, ih, hbody]

theorem foldl_snd {α β : Type} (G : β → Nat → β) (body : α × β → Nat → α × β)
    (hbody : ∀ st i, (body st i).2 = G st.2 i) (l : List Nat) (st : α × β) :
    (l.foldl body st).2 = l.foldl G st.2 := by
  induction l generalizing st with
  | nil => rfl
  | cons i l ih =>
    rw [List.foldl_cons, List.foldl_cons, ih, hbody]

/-- The cache computed by the decoder with a record is the cache computed by
the decoder. -/
theorem logged_fst (ipa_tdesc : target_desc) (big_endian : Bool) (cache : regcache)
    (buf : byte_ptr) :
    (supply_fast_tracepoint_registers_logged ipa_tdesc big_endian cache buf).1 =
      supply_fast_tracepoint_registers ipa_tdesc big_endian cache buf := by
  have hcore : ((List.range ARM_CORE_NUM_FT_COLLECT_REGS).foldl
      (fun (st : regcache × List (Int × Nat)) i =>
        let index := arm_core_ft_collect_regmap.getD i 0
        if index ≠ FT_CR_UNAVAIL then
          (supply_register st.1 i (buf.offset (arm_core_ft_collect_regmap.getD i 0)),
            st.2 ++ [(arm_core_ft_collect_regmap.getD i 0, register_size i)])
        else st)
      (cache, [])).1 =
      (List.range ARM_CORE_NUM_FT_COLLECT_REGS).foldl
        (fun cache i =>
          let index := arm_core_ft_collect_regmap.getD i 0
          if index ≠ FT_CR_UNAVAIL then
            supply_register cache i (buf.offset (arm_core_ft_collect_regmap.getD i 0))
          else cache)
        cache := by
    apply foldl_fst
    intro st i
    dsimp only
    split <;> rfl
  have hext : ∀ (table : List Int) (n : Nat) (st : regcache × List (Int × Nat)),
      ((List.range n).foldl
        (fun (st : regcache × List (Int × Nat)) i =>
          (supply_register st.1 (i + ARM_CORE_NUM_FT_COLLECT_REGS)
              (buf.offset (table.getD i 0)),
            st.2 ++ [(table.getD i 0, register_size (i + ARM_CORE_NUM_FT_COLLECT_REGS))]))
        st).1 =
      (List.range n).foldl
        (fun cache i =>
          supply_register cache (i + ARM_CORE_NUM_FT_COLLECT_REGS) (buf.offset (table.getD i 0)))
        st.1 := by
    intro table n st
    apply foldl_fst
    intro st i
    rfl
  cases ipa_tdesc
  · simp only [supply_fast_tracepoint_registers_logged, supply_fast_tracepoint_registers,
      reduceCtorEq, or_self, if_false]
    rw [hcore]
  · simp only [supply_fast_tracepoint_registers_logged, supply_fast_tracepoint_registers,
      reduceCtorEq, or_self, if_false, if_true]
    rw [hext, hcore]
  · simp only [supply_fast_tracepoint_registers_logged, supply_fast_tracepoint_registers,
      reduceCtorEq, or_true, if_true]
    rw [hext, hcore]
  · simp only [supply_fast_tracepoint_registers_logged, supply_fast_tracepoint_registers,
      reduceCtorEq, true_or, if_true]
    rw [hext, hcore]

/-- The record of reads, entry by entry: the sixteen core words in register
order, then one double word per extension register of the descriptor. -/
theorem logged_snd (ipa_tdesc : target_desc) (big_endian : Bool) (cache : regcache)
    (buf : byte_ptr) :
    (supply_fast_tracepoint_registers_logged ipa_tdesc big_endian cache buf).2 =
      [(8, 4), (12, 4), (16, 4), (20, 4), (24, 4), (28, 4), (32, 4), (36, 4), (40, 4),
        (44, 4), (48, 4), (52, 4), (56, 4), (60, 4), (0, 4), (4, 4)] ++
      (List.range (extension_register_count ipa_tdesc)).map
        (fun i => (64 + 8 * (i : Int), 8)) := by
  have hcore : ((List.range ARM_CORE_NUM_FT_COLLECT_REGS).foldl
      (fun (st : regcache × List (Int × Nat)) i =>
        let index := arm_core_ft_collect_regmap.getD i 0
        if index ≠ FT_CR_UNAVAIL then
          (supply_register st.1 i (buf.offset (arm_core_ft_collect_regmap.getD i 0)),
            st.2 ++ [(arm_core_ft_collect_regmap.getD i 0, register_size i)])
        else st)
      (cache, [])).2 =
      [(8, 4), (12, 4), (16, 4), (20, 4), (24, 4), (28, 4), (32, 4), (36, 4), (40, 4),
        (44, 4), (48, 4), (52, 4), (56, 4), (60, 4), (0, 4), (4, 4)] := by
    rw [foldl_snd
      (fun (log : List (Int × Nat)) i =>
        if arm_core_ft_collect_regmap.getD i 0 ≠ FT_CR_UNAVAIL then
          log ++ [(arm_core_ft_collect_regmap.getD i 0, register_size i)]
        else log)]
    · show List.foldl _ [] _ = _
      decide
    · intro st i
      dsimp only
      split <;> rfl
  have hext : ∀ (table : List Int) (n : Nat) (st : regcache × List (Int × Nat)),
      ((List.range n).foldl
        (fun (st : regcache × List (Int × Nat)) i =>
          (supply_register st.1 (i + ARM_CORE_NUM_FT_COLLECT_REGS)
              (buf.offset (table.getD i 0)),
            st.2 ++ [(table.getD i 0, register_size (i + ARM_CORE_NUM_FT_COLLECT_REGS))]))
        st).2 =
      (List.range n).foldl
        (fun (log : List (Int × Nat)) i =>
          log ++ [(table.getD i 0, register_size (i + ARM_CORE_NUM_FT_COLLECT_REGS))])
        st.2 := by
    intro table n st
    apply foldl_snd
    intro st i
    rfl
  cases ipa_tdesc
  · simp only [supply_fast_tracepoint_registers_logged, reduceCtorEq, or_self, if_false]
    rw [hcore]
    rfl
  · simp only [supply_fast_tracepoint_registers_logged, reduceCtorEq, or_self, if_false,
      if_true]
    rw [hext, hcore]
    decide
  · simp only [supply_fast_tracepoint_registers_logged, reduceCtorEq, or_true, if_true]
    rw [hext, hcore]
    decide
  · simp only [supply_fast_tracepoint_registers_logged, reduceCtorEq, true_or, if_true]
    rw [hext, hcore]
    decide

/-- C14: with `N` the extension register count of the selected descriptor and
a buffer of length `64 + 8 N`, every read the decoder makes in the buffer is
in bounds.  The record of reads holds 16 core reads followed by `N` extension
reads; each core read is of 4 bytes at an offset `o` with `0 <= o` and
`o + 4 <= 64`, each extension read is of 8 bytes at an offset `o` with
`64 <= o` and `o + 8 <= 64 + 8 N`, and the sentinel `-1` is never an offset
read at.  The cache computed along with the record is the cache of
`supply_fast_tracepoint_registers`. -/
theorem supply_reads_in_bounds (ipa_tdesc : target_desc) (big_endian : Bool) (cache : regcache)
    (buf : byte_ptr) (len : Nat) (hlen : len = 64 + 8 * extension_register_count ipa_tdesc) :
    (supply_fast_tracepoint_registers_logged ipa_tdesc big_endian cache buf).1 =
      supply_fast_tracepoint_registers ipa_tdesc big_endian cache buf ∧
    (supply_fast_tracepoint_registers_logged ipa_tdesc big_endian cache buf).2.length =
      16 + extension_register_count ipa_tdesc ∧
    (∀ r ∈ (supply_fast_tracepoint_registers_logged ipa_tdesc big_endian cache buf).2.take 16,
      r.2 = 4 ∧ 0 ≤ r.1 ∧ r.1 + 4 ≤ 64) ∧
    (∀ r ∈ (supply_fast_tracepoint_registers_logged ipa_tdesc big_endian cache buf).2.drop 16,
      r.2 = 8 ∧ 64 ≤ r.1 ∧ r.1 + 8 ≤ 64 + 8 * (extension_register_count ipa_tdesc : Int)) ∧
    (∀ r ∈ (supply_fast_tracepoint_registers_logged ipa_tdesc big_endian cache buf).2,
      r.1 ≠ FT_CR_UNAVAIL ∧ 0 ≤ r.1 ∧ r.1 + (r.2 : Int) ≤ (len : Int)) := by
  subst hlen
  refine ⟨logged_fst ipa_tdesc big_endian cache buf, ?_, ?_, ?_, ?_⟩
  · rw [logged_snd]
    cases ipa_tdesc <;> decide
  · rw [logged_snd]
    cases ipa_tdesc <;> decide
  · rw [logged_snd]
    cases ipa_tdesc <;> decide
  · rw [logged_snd]
    cases ipa_tdesc <;> decide

theorem supply_reads_in_bounds_witness :
    192 = 64 + 8 * extension_register_count tdesc_arm_with_vfpv2 ∧
      (184, 8) ∈ (supply_fast_tracepoint_registers_logged tdesc_arm_with_vfpv2 false
          (fun _ => []) { addr := 4096, load := fun k => (k % 256).toNat }).2 ∧
      (((184, 8) : Int × Nat).1 ≠ FT_CR_UNAVAIL ∧ 0 ≤ ((184, 8) : Int × Nat).1 ∧
        ((184, 8) : Int × Nat).1 + ((((184, 8) : Int × Nat).2 : Nat) : Int) ≤
          ((192 : Nat) : Int)) ∧
      (supply_fast_tracepoint_registers_logged tdesc_arm_with_vfpv2 false
          (fun _ => []) { addr := 4096, load := fun k => (k % 256).toNat }).2.length =
        16 + extension_register_count tdesc_arm_with_vfpv2 :=
  ⟨by decide, by decide,
    (supply_reads_in_bounds tdesc_arm_with_vfpv2 false (fun _ => [])
      { addr := 4096, load := fun k => (k % 256).toNat } 192 (by decide)).2.2.2.2 (184, 8)
      (by decide),
    (supply_reads_in_bounds tdesc_arm_with_vfpv2 false (fun _ => [])
      { addr := 4096, load := fun k => (k % 256).toNat } 192 (by decide)).2.1⟩

/-! ### The decoder: decoding the same buffer twice -/

theorem core_regmap_bounds : ∀ i : Nat, i < 26 →
    arm_core_ft_collect_regmap.getD i 0 = FT_CR_UNAVAIL ∨
      (0 ≤ arm_core_ft_collect_regmap.getD i 0 ∧ arm_core_ft_collect_regmap.getD i 0 + 4 ≤ 64) := by
  decide

theorem read_congr (b1 b2 : byte_ptr) (o : Int) (w : Nat)
    (h : ∀ k : Nat, k < w → b1.load (o + k) = b2.load (o + k)) :
    (b1.offset o).read w = (b2.offset o).read w := by
  simp only [byte_ptr.read, byte_ptr.offset]
  exact List.map_congr_left (fun k hk => h k (List.mem_range.mp hk))

/-- The decoder reads the capture buffer only through its address and its
bytes at the offsets `0 <= o < 64 + 8 N`, and leaves outside the written
registers what the initial cache holds. -/
theorem supply_congr (ipa_tdesc : target_desc) (big_endian : Bool) (c1 c2 : regcache)
    (b1 b2 : byte_ptr) (hcache : ∀ m, c1 m = c2 m) (haddr : b1.addr = b2.addr)
    (hbytes : ∀ o : Int, 0 ≤ o → o < 64 + 8 * (extension_register_count ipa_tdesc : Int) →
      b1.load o = b2.load o) (m : Nat) :
    supply_fast_tracepoint_registers ipa_tdesc big_endian c1 b1 m =
      supply_fast_tracepoint_registers ipa_tdesc big_endian c2 b2 m := by
  rw [supply_apply, supply_apply, haddr, hcache m]
  by_cases h13 : m = 13
  · rw [if_pos h13, if_pos h13]
  · rw [if_neg h13, if_neg h13]
    by_cases hext : 26 ≤ m ∧ m < 26 + extension_register_count ipa_tdesc
    · rw [if_pos hext, if_pos hext, register_size_ext m hext.1]
      apply read_congr
      intro k hk
      apply hbytes <;> omega
    · rw [if_neg hext, if_neg hext]
      by_cases hcore : m < 26 ∧ arm_core_ft_collect_regmap.getD m 0 ≠ FT_CR_UNAVAIL
      · rw [if_pos hcore, if_pos hcore, register_size_core m hcore.1]
        apply read_congr
        intro k hk
        rcases core_regmap_bounds m hcore.1 with hs | hb
        · exact absurd hs hcore.2
        · apply hbytes <;> omega
      · rw [if_neg hcore, if_neg hcore]

/-- C12: for a capture buffer decoded twice (same base address, same bytes
at the offsets `0 <= o < 64 + 8 N` of the buffer) under the same selected
descriptor, each time into a fresh cache (two caches of the same content),
the two resulting caches are identical. -/
theorem supply_twice_identical (ipa_tdesc : target_desc) (big_endian : Bool)
    (fresh1 fresh2 : regcache) (buf1 buf2 : byte_ptr)
    (hfresh : ∀ m, fresh1 m = fresh2 m) (haddr : buf1.addr = buf2.addr)
    (hbytes : ∀ o : Int, 0 ≤ o → o < 64 + 8 * (extension_register_count ipa_tdesc : Int) →
      buf1.load o = buf2.load o) :
    supply_fast_tracepoint_registers ipa_tdesc big_endian fresh1 buf1 =
      supply_fast_tracepoint_registers ipa_tdesc big_endian fresh2 buf2 := by
  funext m
  exact supply_congr ipa_tdesc big_endian fresh1 fresh2 buf1 buf2 hfresh haddr hbytes m

theorem supply_twice_identical_witness :
    supply_fast_tracepoint_registers tdesc_arm_with_vfpv2 false (fun _ => [])
        { addr := 4096, load := fun k => (k % 256).toNat } =
      supply_fast_tracepoint_registers tdesc_arm_with_vfpv2 false (fun _ => [])
        { addr := 4096, load := fun k => if k < 192 then (k % 256).toNat else 7 } :=
  supply_twice_identical tdesc_arm_with_vfpv2 false (fun _ => []) (fun _ => [])
    { addr := 4096, load := fun k => (k % 256).toNat }
    { addr := 4096, load := fun k => if k < 192 then (k % 256).toNat else 7 }
    (fun _ => rfl) rfl
    (by
      intro o _ h
      have h192 : o < 192 := by
        simp only [extension_register_count] at h
        omega
      simp [h192])

end LinuxArmIpa
